import Mathlib

/-!
OwlWare Program Manager: loader, validator, persistence, manager loop,
lifecycle requests and audio/program handoff, and the USB data-in stage.

A shallow embedding of `Source/ProgramManager.cpp` and of `usbd_audio_DataIn`
in `Source/usbd_audio_core.c`.

* Memory is a byte map over natural-number addresses; 32-bit words are read
  little-endian (Cortex-M4).
* `PATCHRAM` is a macro of `device.h`; every definition that uses it takes it
  as the parameter `PATCHRAM`.
* 32-bit unsigned arithmetic is written with an explicit `% 2^32`.
* The null pointer is the address `0`.
-/

namespace OwlWare

/-! ## Memory -/

/-- Byte-addressed memory: the byte stored at each address. -/
abbrev Memory := Nat → Nat

/-- The 32-bit modulus. -/
def WORD : Nat := 4294967296

/-- Little-endian 32-bit load, the `*(uint32_t*)a` of the source. -/
def readWord (m : Memory) (a : Nat) : Nat :=
  m a % 256 + 256 * (m (a + 1) % 256) + 65536 * (m (a + 2) % 256)
    + 16777216 * (m (a + 3) % 256)

/-- Little-endian 32-bit store of `w` at `a` (used to build concrete images). -/
def writeWord (m : Memory) (a w : Nat) : Memory := fun x =>
  if x = a then w % 256
  else if x = a + 1 then w / 256 % 256
  else if x = a + 2 then w / 65536 % 256
  else if x = a + 3 then w / 16777216 % 256
  else m x

/-- Store one byte. -/
def writeByte (m : Memory) (a b : Nat) : Memory := fun x =>
  if x = a then b else m x

/-- The libc `memcpy(dst, src, n)`: the `n` bytes at `dst` receive the bytes
the source held before the call; every other byte is untouched. For
non-overlapping ranges this is the behaviour the C standard defines. -/
def memcpy (dst src n : Nat) (m : Memory) : Memory := fun x =>
  if dst ≤ x ∧ x < dst + n then m (src + (x - dst)) else m x

/-- Two byte ranges `[a, a+n)` and `[b, b+k)` do not overlap. -/
def Separate (a n b k : Nat) : Prop := a + n ≤ b ∨ b + k ≤ a

instance (a n b k : Nat) : Decidable (Separate a n b k) := by
  unfold Separate; infer_instance

/-! ## Program handle and loader -/

/-- The loader state: memory, the `ProgramManager` members and the global
`programFunction` (entry pointer, `0` is `NULL`). -/
structure State where
  mem : Memory
  programAddress : Nat
  programLength : Nat
  programStackPointer : Nat
  programFunction : Nat

/-- The loader `ProgramManager::load(void* address, uint32_t length)`. -/
def load (PATCHRAM : Nat) (address length : Nat) (s : State) : State :=
  let programStackPointer := readWord s.mem (address + 4)
  let jumpAddress := readWord s.mem (address + 8)
  let link := readWord s.mem (address + 12)
  if link = PATCHRAM ∧ length < 80 * 1024 then
    { mem := memcpy link address length s.mem
      programAddress := address
      programLength := length
      programStackPointer := programStackPointer
      programFunction := jumpAddress }
  else
    { mem := s.mem
      programAddress := address
      programLength := length
      programStackPointer := programStackPointer
      programFunction := 0 }

/-- The validator `ProgramManager::verify()`. The upper bound `PATCHRAM+80*1024` is computed
in 32-bit arithmetic. -/
def verify (PATCHRAM : Nat) (s : State) : Bool :=
  if readWord s.mem s.programAddress ≠ 0xDADAC0DE then false
  else if s.programFunction = 0 then false
  else if s.programStackPointer < PATCHRAM then false
  else if s.programStackPointer > (PATCHRAM + 80 * 1024) % WORD then false
  else true

/-! ## Persistence -/

/-- Unsigned 32-bit subtraction, the `addr -= x` of the source. -/
def sub32 (a b : Nat) : Nat := (a + WORD - b % WORD) % WORD

/-- Calls that `saveProgram` and `loadProgram` make to their collaborators:
the four storage-driver primitives of `eepromcontrol.h` and the loader. -/
inductive Call where
  | eeprom_unlock
  | eeprom_erase (addr : Nat)
  | eeprom_write_block (addr src len : Nat)
  | eeprom_lock
  | load (address length : Nat)
  deriving DecidableEq

/-- The EEPROM base address `FLASH_SECTOR_1` that `saveProgram` subtracts. -/
def EEPROM_BASE : Nat := 0x08004000

/-- Modelled from the spec: the storage driver `eepromcontrol` is not among the
sources. `eeprom_erase(addr)` erases the 128 KiB target region that starts
`addr` bytes above the EEPROM base; erased flash reads `0xFF`. -/
def eeprom_erase (addr : Nat) (m : Memory) : Memory := fun x =>
  if EEPROM_BASE + addr ≤ x ∧ x < EEPROM_BASE + addr + 128 * 1024 then 0xFF else m x

/-- Modelled from the spec: the storage driver `eepromcontrol` is not among the
sources. `eeprom_write_block(addr, data, len)` stores the `len` bytes at `data`
into the byte map of storage, `addr` bytes above the EEPROM base, where the
loader later reads them through the memory-mapped flash. -/
def eeprom_write_block (addr src len : Nat) (m : Memory) : Memory :=
  memcpy (EEPROM_BASE + addr) src len m

/-- What a persistence operation did: the returned `bool` (`none` when control
reaches the end of the function without a `return`), the collaborator calls in
order, and the state afterwards. -/
structure Outcome where
  ret : Option Bool
  calls : List Call
  state : State

/-- The address `saveProgram` computes for a slot (`uint8_t sector`). -/
def saveProgramAddr (sector : Nat) : Nat :=
  sub32 (sub32 0x080E0000 (sector * 128 * 1024)) 0x08004000

/-- The address `loadProgram` computes for a slot (`uint8_t sector`). -/
def loadProgramAddr (sector : Nat) : Nat :=
  sub32 0x080E0000 (sector * 128 * 1024)

/-- The save operation `ProgramManager::saveProgram(uint8_t sector)`. The
success path ends without a `return` statement. -/
def saveProgram (PATCHRAM : Nat) (sector : Nat) (s : State) : Outcome :=
  if sector > 4 then ⟨some false, [], s⟩
  else
    let addr := saveProgramAddr sector
    if addr < 0x3c000 ∨ addr > 0xdc000 then ⟨some false, [], s⟩
    else
      ⟨none,
       [Call.eeprom_unlock, Call.eeprom_erase addr,
        Call.eeprom_write_block addr PATCHRAM s.programLength, Call.eeprom_lock],
       { s with mem := eeprom_write_block addr PATCHRAM s.programLength
                         (eeprom_erase addr s.mem) }⟩

/-- The restore operation `ProgramManager::loadProgram(uint8_t sector)`. -/
def loadProgram (PATCHRAM : Nat) (sector : Nat) (s : State) : Outcome :=
  if sector > 4 then ⟨some false, [], s⟩
  else
    let addr := loadProgramAddr sector
    let size := 80 * 1024
    ⟨some true, [Call.load addr size], load PATCHRAM addr size s⟩

/-! ## Manager task -/

/-- The start request bit `START_PROGRAM_NOTIFICATION`. -/
def START_PROGRAM_NOTIFICATION : Nat := 0x01

/-- The stop request bit `STOP_PROGRAM_NOTIFICATION`. -/
def STOP_PROGRAM_NOTIFICATION : Nat := 0x02

/-- The scheduler's view of the program task: the global `xProgramHandle`
(`0` is `NULL`), the handles of the program tasks that currently exist, and
the number of task handles handed out so far. -/
structure Tasks where
  xProgramHandle : Nat
  programTasks : List Nat
  allocated : Nat
  deriving DecidableEq

/-- FreeRTOS `vTaskDelete(h)`: the task with handle `h` ceases to exist. -/
def vTaskDelete (h : Nat) (k : Tasks) : Tasks :=
  { k with programTasks := k.programTasks.filter (fun t => t ≠ h) }

/-- FreeRTOS `xTaskCreate(runProgramTask, ..., &xProgramHandle)`: when the
allocation succeeds (`ok`) a new task exists and its handle, a non-null value
never handed out before, is stored in `xProgramHandle`; when it fails nothing
changes. -/
def xTaskCreate (ok : Bool) (k : Tasks) : Tasks :=
  if ok then
    { xProgramHandle := k.allocated + 1
      programTasks := (k.allocated + 1) :: k.programTasks
      allocated := k.allocated + 1 }
  else k

/-- The stop half of one `runManager` iteration (the first `if`). -/
def stopPhase (ulNotifiedValue : Nat) (k : Tasks) : Tasks :=
  if ulNotifiedValue &&& STOP_PROGRAM_NOTIFICATION ≠ 0 then
    if k.xProgramHandle ≠ 0 then
      { vTaskDelete k.xProgramHandle k with xProgramHandle := 0 }
    else k
  else k

/-- The start half of one `runManager` iteration (the second `if`). -/
def startPhase (ulNotifiedValue : Nat) (ok : Bool) (k : Tasks) : Tasks :=
  if ulNotifiedValue &&& START_PROGRAM_NOTIFICATION ≠ 0 then
    if k.xProgramHandle = 0 then xTaskCreate ok k else k
  else k

/-- One iteration of the `for(;;)` loop of `ProgramManager::runManager` on the
value `xTaskNotifyWait` delivered; `ok` tells whether a task creation in this
iteration succeeds. The `stats()` housekeeping only samples high-water marks
and touches none of this state. -/
def runManagerIteration (ulNotifiedValue : Nat) (ok : Bool) (k : Tasks) : Tasks :=
  startPhase ulNotifiedValue ok (stopPhase ulNotifiedValue k)

/-- The Stopped state: null handle, no program task. -/
def stopped : Tasks := { xProgramHandle := 0, programTasks := [], allocated := 0 }

/-- The Manager loop run over a sequence of delivered notifications. -/
def runManager (ns : List (Nat × Bool)) : Tasks :=
  ns.foldl (fun k n => runManagerIteration n.1 n.2 k) stopped

/-- The handle is null with no program task, or it names the only one. -/
def WellFormed (k : Tasks) : Prop :=
  (k.xProgramHandle = 0 ∧ k.programTasks = []) ∨
  (k.xProgramHandle ≠ 0 ∧ k.programTasks = [k.xProgramHandle])

/-- Every existing program task carries a handle that was handed out. -/
def Allocated (k : Tasks) : Prop := ∀ t ∈ k.programTasks, t ≤ k.allocated

/-! ## Lifecycle requests -/

/-- Modelled from the spec: `SharedMemory.h` is not among the sources. The
shared block-status flag takes the four values IDLE, READY, PROCESSED and
EXIT-REQUESTED. -/
inductive Status where
  | AUDIO_IDLE_STATUS
  | AUDIO_READY_STATUS
  | AUDIO_PROCESSED_STATUS
  | AUDIO_EXIT_STATUS
  deriving DecidableEq

/-- The globals the lifecycle requests, the Manager and the handoff share: the
program task bookkeeping, `xManagerHandle` (`0` is `NULL`), the pending
notification value of the Manager task, the shared status flag, whether the
program task is in the Suspended state, whether the binary semaphore is
given, and the number of blocks the program has reported as processed. -/
structure System where
  tasks : Tasks
  xManagerHandle : Nat
  notified : Nat
  status : Status
  suspended : Bool
  semaphore : Bool
  blocksProcessed : Nat
  deriving DecidableEq

/-- Modelled from the spec: the scheduler is not among the sources. The call
`xTaskNotifyFromISR(xManagerHandle, ulValue, eSetBits, ..)` sets the bits of
`ulValue` in the pending notification value of the Manager task. -/
def xTaskNotifyFromISR (ulValue : Nat) (s : System) : System :=
  { s with notified := s.notified ||| ulValue }

/-- The request `ProgramManager::startProgram()`. The closing
`portYIELD_FROM_ISR` only asks for a context switch. -/
def startProgram (s : System) : System :=
  let s1 := { s with status := Status.AUDIO_IDLE_STATUS }
  if s1.xManagerHandle ≠ 0 then xTaskNotifyFromISR START_PROGRAM_NOTIFICATION s1 else s1

/-- The request `ProgramManager::exit()`. -/
def exit (s : System) : System :=
  let s1 := { s with status := Status.AUDIO_EXIT_STATUS }
  if s1.xManagerHandle ≠ 0 then xTaskNotifyFromISR STOP_PROGRAM_NOTIFICATION s1 else s1

/-- The request `ProgramManager::reset()`. -/
def reset (s : System) : System :=
  if s.xManagerHandle ≠ 0 then
    xTaskNotifyFromISR (STOP_PROGRAM_NOTIFICATION ||| START_PROGRAM_NOTIFICATION) s
  else s

/-- The three lifecycle requests. -/
inductive Request where
  | startProgram
  | exit
  | reset
  deriving DecidableEq

/-- Issue one lifecycle request. -/
def Request.issue (r : Request) (s : System) : System :=
  match r with
  | Request.startProgram => OwlWare.startProgram s
  | Request.exit => OwlWare.exit s
  | Request.reset => OwlWare.reset s

/-- Issue a sequence of lifecycle requests with no Manager iteration between. -/
def issueAll (rs : List Request) (s : System) : System :=
  rs.foldl (fun s r => r.issue s) s

/-- What the Manager did to the program task in one iteration: a `vTaskDelete`
of the task with the given handle, together with the value the shared status
flag held at that moment, or an `xTaskCreate` call and whether it succeeded. -/
inductive ManagerEvent where
  | deleted (handle : Nat) (status : Status)
  | createCalled (ok : Bool)
  deriving DecidableEq

/-- One iteration of `ProgramManager::runManager` on the whole system:
`xTaskNotifyWait(pdFALSE, UINT32_MAX, &ulNotifiedValue, ..)` delivers the
pending value and resets it to 0, then the stop half and the start half run.
A task that was just created is runnable. The second component lists the
scheduler calls the iteration made. -/
def managerIteration (ok : Bool) (s : System) : System × List ManagerEvent :=
  let ulNotifiedValue := s.notified
  let afterStop := stopPhase ulNotifiedValue s.tasks
  let afterStart := startPhase ulNotifiedValue ok afterStop
  ({ s with
      notified := 0
      tasks := afterStart
      suspended := if afterStart.allocated = afterStop.allocated then s.suspended else false },
   (if ulNotifiedValue &&& STOP_PROGRAM_NOTIFICATION ≠ 0 ∧ s.tasks.xProgramHandle ≠ 0 then
      [ManagerEvent.deleted s.tasks.xProgramHandle s.status]
    else []) ++
   (if ulNotifiedValue &&& START_PROGRAM_NOTIFICATION ≠ 0 ∧ afterStop.xProgramHandle = 0 then
      [ManagerEvent.createCalled ok]
    else []))

/-- The most recent request of a sequence that writes the status flag
(`reset` does not write it), if there is one. -/
def lastStatusWriter (rs : List Request) : Option Request :=
  (rs.filter (fun r => r ≠ Request.reset)).getLast?

/-! ## Program task entry -/

/-- What the program task does, step by step. -/
inductive TaskAction where
  | setLedGreen
  | invoke (address : Nat)
  | spin
  deriving DecidableEq

/-- The task entry `runProgramTask(void* p)`, given the global
`programFunction`: `setLed(GREEN)`, the call through the entry pointer, and
the closing `for(;;)`. -/
def runProgramTask (programFunction : Nat) : List TaskAction :=
  [TaskAction.setLedGreen, TaskAction.invoke programFunction, TaskAction.spin]

/-! ## Audio/program handoff -/

/-- The handoff strategy selected at build time; the source defines
`AUDIO_TASK_SUSPEND`, and falls back to the direct poll when none of the first
three is defined. -/
inductive Strategy where
  | AUDIO_TASK_SUSPEND
  | AUDIO_TASK_SEMAPHORE
  | AUDIO_TASK_YIELD
  | AUDIO_TASK_DIRECT
  deriving DecidableEq

/-- The scheduler calls and flag accesses the handoff code is made of. -/
inductive Primitive where
  | xTaskResumeFromISR (handle : Nat)
  | portYIELD_FROM_ISR
  | xSemaphoreGiveFromISR
  | storeStatus (v : Status)
  | vTaskSuspend (handle : Nat)
  | xSemaphoreTake (ticks : Nat)
  | taskYIELD
  | waitStatus (v : Status)
  deriving DecidableEq

/-- Modelled from the spec: the scheduler is not among the sources. The
`FromISR` calls and a plain store return at once; `vTaskSuspend` on the
calling task, `taskYIELD`, a semaphore take with a non-zero timeout and the
busy-wait on the status flag give up or hold the processor until some other
party acts. -/
def Primitive.nonBlocking : Primitive → Bool
  | Primitive.xTaskResumeFromISR _ => true
  | Primitive.portYIELD_FROM_ISR => true
  | Primitive.xSemaphoreGiveFromISR => true
  | Primitive.storeStatus _ => true
  | Primitive.vTaskSuspend _ => false
  | Primitive.xSemaphoreTake ticks => ticks = 0
  | Primitive.taskYIELD => false
  | Primitive.waitStatus _ => false

/-- Modelled from the spec: the scheduler is not among the sources. The call
`xTaskResumeFromISR` makes a suspended task runnable and is a no-op against
an already-running task; it keeps no count of calls. -/
def xTaskResumeFromISR (s : System) : System := { s with suspended := false }

/-- Modelled from the spec: the scheduler is not among the sources. The call
`vTaskSuspend` on the program task puts it in the Suspended state. -/
def vTaskSuspend (s : System) : System := { s with suspended := true }

/-- The interrupt-side call `ProgramManager::audioReady()` under each
strategy, with the primitives it executes in order. -/
def audioReady (strategy : Strategy) (s : System) : System × List Primitive :=
  match strategy with
  | Strategy.AUDIO_TASK_SUSPEND | Strategy.AUDIO_TASK_YIELD =>
    if s.tasks.xProgramHandle ≠ 0 then
      (xTaskResumeFromISR s,
       [Primitive.xTaskResumeFromISR s.tasks.xProgramHandle, Primitive.portYIELD_FROM_ISR])
    else (s, [])
  | Strategy.AUDIO_TASK_SEMAPHORE =>
    ({ s with semaphore := true },
     [Primitive.xSemaphoreGiveFromISR, Primitive.portYIELD_FROM_ISR])
  | Strategy.AUDIO_TASK_DIRECT =>
    ({ s with status := Status.AUDIO_READY_STATUS },
     [Primitive.storeStatus Status.AUDIO_READY_STATUS])

/-- The task-side call `ProgramManager::programReady()` under each strategy,
made by the program when a block has been processed. The result is `none`
when the direct-poll busy-wait cannot leave its loop in the current state. -/
def programReady (strategy : Strategy) (s : System) : Option System × List Primitive :=
  match strategy with
  | Strategy.AUDIO_TASK_SUSPEND =>
    (some (vTaskSuspend { s with blocksProcessed := s.blocksProcessed + 1 }),
     [Primitive.vTaskSuspend s.tasks.xProgramHandle])
  | Strategy.AUDIO_TASK_SEMAPHORE =>
    (some { s with semaphore := false, blocksProcessed := s.blocksProcessed + 1 },
     [Primitive.xSemaphoreTake 0])
  | Strategy.AUDIO_TASK_YIELD =>
    (some { s with blocksProcessed := s.blocksProcessed + 1 }, [Primitive.taskYIELD])
  | Strategy.AUDIO_TASK_DIRECT =>
    if s.status = Status.AUDIO_READY_STATUS then
      (some { s with status := Status.AUDIO_PROCESSED_STATUS,
                     blocksProcessed := s.blocksProcessed + 1 },
       [Primitive.waitStatus Status.AUDIO_READY_STATUS,
        Primitive.storeStatus Status.AUDIO_PROCESSED_STATUS])
    else (none, [Primitive.waitStatus Status.AUDIO_READY_STATUS])

/-! ## USB data-in stage -/

/-- The globals of `usbd_audio_core.c` that the IN data stage uses. -/
structure UsbState where
  USB_Tx_State : Nat
  APP_Rx_ptr_in : Nat
  APP_Rx_ptr_out : Nat
  APP_Rx_length : Nat
  deriving DecidableEq

/-- A call `DCD_EP_Tx(pdev, AUDIO_IN_EP, &APP_Rx_Buffer[ptr], len)`. -/
structure Transmit where
  ptr : Nat
  len : Nat
  deriving DecidableEq

/-- The handler `usbd_audio_DataIn`. `MIDI_MAX_PACKET_SIZE` is a macro of a
header that is not among the sources. The locals `USB_Tx_ptr` and
`USB_Tx_length` are `uint16_t`, the globals `uint32_t`. -/
def usbd_audio_DataIn (MIDI_MAX_PACKET_SIZE : Nat) (s : UsbState) :
    UsbState × Option Transmit :=
  if s.USB_Tx_State = 1 then
    if s.APP_Rx_length = 0 then
      ({ s with USB_Tx_State := 0 }, none)
    else if s.APP_Rx_length > MIDI_MAX_PACKET_SIZE then
      let USB_Tx_ptr := s.APP_Rx_ptr_out % 65536
      let USB_Tx_length := MIDI_MAX_PACKET_SIZE % 65536
      ({ s with
          APP_Rx_ptr_out := (s.APP_Rx_ptr_out + MIDI_MAX_PACKET_SIZE) % WORD
          APP_Rx_length := sub32 s.APP_Rx_length MIDI_MAX_PACKET_SIZE },
       some ⟨USB_Tx_ptr, USB_Tx_length⟩)
    else
      let USB_Tx_ptr := s.APP_Rx_ptr_out % 65536
      let USB_Tx_length := s.APP_Rx_length % 65536
      ({ s with
          APP_Rx_ptr_out := (s.APP_Rx_ptr_out + s.APP_Rx_length) % WORD
          APP_Rx_length := 0 },
       some ⟨USB_Tx_ptr, USB_Tx_length⟩)
  else (s, none)

/-! ## Concrete data used by the closed examples -/

/-- The execution-region base of the reference device, used for examples. -/
def examplePATCHRAM : Nat := 0x2000C000

/-- Memory holding a four-word header at `base`. -/
def headerMem (base magic sp entry link : Nat) : Memory :=
  writeWord (writeWord (writeWord (writeWord (fun _ => 0) base magic) (base + 4) sp)
    (base + 8) entry) (base + 12) link

/-- A state with the given memory and an empty program handle. -/
def initState (m : Memory) : State :=
  { mem := m, programAddress := 0, programLength := 0, programStackPointer := 0,
    programFunction := 0 }

/-- A candidate image in external RAM: magic, stack pointer at the top of the
execution region, entry inside the region, link base equal to the region. -/
def goodImage : State :=
  initState (headerMem 0x68000000 0xDADAC0DE 0x20020000 0x2000C101 0x2000C000)

/-- The same image linked one byte past the region base. -/
def badLinkImage : State :=
  initState (headerMem 0x68000000 0xDADAC0DE 0x2000D000 0x2000C101 0x2000C001)

/-- The 16-byte image of `goodImage` resident in the execution region. -/
def residentState : State := load examplePATCHRAM 0x68000000 16 goodImage

/-- The state after the resident image was saved to slot 0. -/
def savedState : State := (saveProgram examplePATCHRAM 0 residentState).state

/-- The saved state after the first byte of the execution region was
overwritten with zero. -/
def clobberedState : State := { savedState with mem := writeByte savedState.mem examplePATCHRAM 0 }

/-- A system with the Manager task present and no program task. -/
def stoppedSystem : System :=
  { tasks := stopped, xManagerHandle := 1000, notified := 0,
    status := Status.AUDIO_IDLE_STATUS, suspended := false, semaphore := false,
    blocksProcessed := 0 }

/-- A system with the Manager task present and the program task with handle 1
waiting, suspended, for its next block. -/
def runningSystem : System :=
  { tasks := { xProgramHandle := 1, programTasks := [1], allocated := 1 },
    xManagerHandle := 1000, notified := 0, status := Status.AUDIO_IDLE_STATUS,
    suspended := true, semaphore := false, blocksProcessed := 0 }

/-- A system without a Manager task. -/
def unmanagedSystem : System := { runningSystem with xManagerHandle := 0 }

/-- A transfer in progress: 100 bytes pending from offset 8. -/
def usbPending : UsbState :=
  { USB_Tx_State := 1, APP_Rx_ptr_in := 108, APP_Rx_ptr_out := 8, APP_Rx_length := 100 }

/-- A transfer in progress with nothing left to send. -/
def usbDrained : UsbState :=
  { USB_Tx_State := 1, APP_Rx_ptr_in := 108, APP_Rx_ptr_out := 108, APP_Rx_length := 0 }

/-! ## Loader and validator -/

/-- A rejected load clears the entry pointer. -/
lemma load_rejected (PATCHRAM address length : Nat) (s : State)
    (h : readWord s.mem (address + 12) ≠ PATCHRAM ∨ 80 * 1024 ≤ length) :
    (load PATCHRAM address length s).programFunction = 0 := by
  have hc : ¬ (readWord s.mem (address + 12) = PATCHRAM ∧ length < 80 * 1024) := by
    rintro ⟨h1, h2⟩
    rcases h with h | h
    · exact h h1
    · omega
  simp only [load, if_neg hc]

/-- An accepted load copies the image and arms the entry pointer. -/
lemma load_accepted (PATCHRAM address length : Nat) (s : State)
    (hlink : readWord s.mem (address + 12) = PATCHRAM) (hlen : length < 80 * 1024) :
    load PATCHRAM address length s =
      { mem := memcpy PATCHRAM address length s.mem
        programAddress := address
        programLength := length
        programStackPointer := readWord s.mem (address + 4)
        programFunction := readWord s.mem (address + 8) } := by
  simp [load, hlink, hlen]

/-- A copy leaves every byte outside the destination range as it was. -/
lemma memcpy_outside (dst src n x : Nat) (m : Memory) (h : x < dst ∨ dst + n ≤ x) :
    memcpy dst src n m x = m x := by
  have hc : ¬ (dst ≤ x ∧ x < dst + n) := by omega
  simp only [memcpy, if_neg hc]

/-- A copy puts the source byte of the same offset at each destination byte. -/
lemma memcpy_inside (dst src n i : Nat) (m : Memory) (h : i < n) :
    memcpy dst src n m (dst + i) = m (src + i) := by
  have hc : dst ≤ dst + i ∧ dst + i < dst + n := by omega
  simp only [memcpy, if_pos hc, Nat.add_sub_cancel_left]

/-- C1: for every candidate image and length, if the link base address (header
word 3) differs from the execution region base or the length is at least
80 KiB, the entry pointer is null after `load`. -/
theorem load_rejected_entry_null (PATCHRAM address length : Nat) (s : State)
    (h : readWord s.mem (address + 12) ≠ PATCHRAM ∨ length ≥ 80 * 1024) :
    (load PATCHRAM address length s).programFunction = 0 :=
  load_rejected PATCHRAM address length s h

/-- Witness for C1: an image linked one byte past the region base. -/
theorem load_rejected_entry_null_witness :
    (readWord badLinkImage.mem (0x68000000 + 12) ≠ examplePATCHRAM ∨ 4096 ≥ 80 * 1024) ∧
    (load examplePATCHRAM 0x68000000 4096 badLinkImage).programFunction = 0 :=
  ⟨by decide, load_rejected_entry_null examplePATCHRAM 0x68000000 4096 badLinkImage (by decide)⟩

/-- C2: when the link base address equals the execution region base, the
length is below 80 KiB and the source image is disjoint from the execution
region, then after `load` the first `length` bytes of the execution region
are the first `length` bytes of the source image (as it was before the call
and as it still is after it), and the entry pointer is header word 2. -/
theorem load_copies_image (PATCHRAM address length : Nat) (s : State)
    (hlink : readWord s.mem (address + 12) = PATCHRAM) (hlen : length < 80 * 1024)
    (hsep : Separate address length PATCHRAM length) :
    (∀ i, i < length →
      (load PATCHRAM address length s).mem (PATCHRAM + i) = s.mem (address + i)) ∧
    (∀ i, i < length →
      (load PATCHRAM address length s).mem (PATCHRAM + i) =
        (load PATCHRAM address length s).mem (address + i)) ∧
    (load PATCHRAM address length s).programFunction = readWord s.mem (address + 8) := by
  rw [load_accepted PATCHRAM address length s hlink hlen]
  refine ⟨fun i hi => memcpy_inside _ _ _ _ _ hi, fun i hi => ?_, rfl⟩
  show memcpy PATCHRAM address length s.mem (PATCHRAM + i)
      = memcpy PATCHRAM address length s.mem (address + i)
  rw [memcpy_inside _ _ _ _ _ hi, memcpy_outside]
  unfold Separate at hsep
  omega

/-- Witness for C2: a 4096-byte image in external RAM linked at the region. -/
theorem load_copies_image_witness :
    (readWord goodImage.mem (0x68000000 + 12) = examplePATCHRAM ∧ 4096 < 80 * 1024 ∧
      Separate 0x68000000 4096 examplePATCHRAM 4096) ∧
    (∀ i, i < 4096 →
      (load examplePATCHRAM 0x68000000 4096 goodImage).mem (examplePATCHRAM + i)
        = goodImage.mem (0x68000000 + i)) ∧
    (∀ i, i < 4096 →
      (load examplePATCHRAM 0x68000000 4096 goodImage).mem (examplePATCHRAM + i)
        = (load examplePATCHRAM 0x68000000 4096 goodImage).mem (0x68000000 + i)) ∧
    (load examplePATCHRAM 0x68000000 4096 goodImage).programFunction = 0x2000C101 :=
  ⟨by decide, load_copies_image examplePATCHRAM 0x68000000 4096 goodImage (by decide)
    (by decide) (by decide)⟩

/-- A word whose four bytes lie outside the destination of a copy is unchanged. -/
lemma readWord_memcpy_outside (dst src n a : Nat) (m : Memory)
    (h : Separate a 4 dst n) : readWord (memcpy dst src n m) a = readWord m a := by
  unfold Separate at h
  unfold readWord
  rw [memcpy_outside dst src n a m (by omega), memcpy_outside dst src n (a + 1) m (by omega),
    memcpy_outside dst src n (a + 2) m (by omega), memcpy_outside dst src n (a + 3) m (by omega)]

/-- What `verify` computes, as a proposition. -/
lemma verify_eq_true_iff (PATCHRAM : Nat) (s : State) :
    verify PATCHRAM s = true ↔
      readWord s.mem s.programAddress = 0xDADAC0DE ∧ s.programFunction ≠ 0 ∧
      PATCHRAM ≤ s.programStackPointer ∧
      s.programStackPointer ≤ (PATCHRAM + 80 * 1024) % WORD := by
  unfold verify
  generalize (PATCHRAM + 80 * 1024) % WORD = top
  by_cases h1 : readWord s.mem s.programAddress = 0xDADAC0DE
  · by_cases h2 : s.programFunction = 0
    · simp [h1, h2]
    · by_cases h3 : s.programStackPointer < PATCHRAM
      · simp [h1, h2, h3]
      · by_cases h4 : s.programStackPointer > top
        · simp only [h1, h2, h3, h4]
          simp
          intro _
          omega
        · simp only [h1, h2, h3, h4]
          simp
          omega
  · simp [h1]

/-- C3, counterexample: an image that passes the link/length check of `load`,
carries the magic and a non-null entry, and records the stack pointer
`PATCHRAM + 80*1024`, one past the last byte of the region, is verified,
although that stack pointer is not below `PATCHRAM + 80*1024`. -/
theorem verify_accepts_region_end :
    readWord goodImage.mem (0x68000000 + 12) = examplePATCHRAM ∧ 4096 < 80 * 1024 ∧
    verify examplePATCHRAM (load examplePATCHRAM 0x68000000 4096 goodImage) = true ∧
    (load examplePATCHRAM 0x68000000 4096 goodImage).programStackPointer
      = examplePATCHRAM + 80 * 1024 ∧
    ¬ (verify examplePATCHRAM (load examplePATCHRAM 0x68000000 4096 goodImage) = true ↔
        readWord goodImage.mem 0x68000000 = 0xDADAC0DE ∧
        (load examplePATCHRAM 0x68000000 4096 goodImage).programFunction ≠ 0 ∧
        examplePATCHRAM ≤
          (load examplePATCHRAM 0x68000000 4096 goodImage).programStackPointer ∧
        (load examplePATCHRAM 0x68000000 4096 goodImage).programStackPointer
          < examplePATCHRAM + 80 * 1024) := by
  decide

/-- C3, amended: for every image on which `load` passes its link/length check
(the region lying inside the 32-bit address space), `verify` returns true if
and only if the first word of the image is `0xDADAC0DE`, the entry pointer is
non-null and the recorded stack pointer satisfies
`PATCHRAM <= sp <= PATCHRAM + 80*1024`, the upper bound included. The entry
pointer and stack pointer are header words 2 and 1 of the image, and the
first word is the one the image held before the load whenever it lies
outside the execution region. -/
theorem verify_after_load_iff (PATCHRAM address length : Nat) (s : State)
    (hP : PATCHRAM + 80 * 1024 < WORD)
    (hlink : readWord s.mem (address + 12) = PATCHRAM) (hlen : length < 80 * 1024) :
    (verify PATCHRAM (load PATCHRAM address length s) = true ↔
      readWord (load PATCHRAM address length s).mem address = 0xDADAC0DE ∧
      (load PATCHRAM address length s).programFunction ≠ 0 ∧
      PATCHRAM ≤ (load PATCHRAM address length s).programStackPointer ∧
      (load PATCHRAM address length s).programStackPointer ≤ PATCHRAM + 80 * 1024) ∧
    (load PATCHRAM address length s).programFunction = readWord s.mem (address + 8) ∧
    (load PATCHRAM address length s).programStackPointer = readWord s.mem (address + 4) ∧
    (Separate address 4 PATCHRAM length →
      readWord (load PATCHRAM address length s).mem address = readWord s.mem address) := by
  refine ⟨?_, ?_, ?_, ?_⟩
  · rw [verify_eq_true_iff, Nat.mod_eq_of_lt hP]
    rw [load_accepted PATCHRAM address length s hlink hlen]
  · rw [load_accepted PATCHRAM address length s hlink hlen]
  · rw [load_accepted PATCHRAM address length s hlink hlen]
  · intro hsep
    rw [load_accepted PATCHRAM address length s hlink hlen]
    exact readWord_memcpy_outside _ _ _ _ _ hsep

/-- Witness for C3 (amended): the image of the counterexample. -/
theorem verify_after_load_iff_witness :
    (examplePATCHRAM + 80 * 1024 < WORD ∧
      readWord goodImage.mem (0x68000000 + 12) = examplePATCHRAM ∧ 4096 < 80 * 1024) ∧
    ((verify examplePATCHRAM (load examplePATCHRAM 0x68000000 4096 goodImage) = true ↔
      readWord (load examplePATCHRAM 0x68000000 4096 goodImage).mem 0x68000000
        = 0xDADAC0DE ∧
      (load examplePATCHRAM 0x68000000 4096 goodImage).programFunction ≠ 0 ∧
      examplePATCHRAM ≤
        (load examplePATCHRAM 0x68000000 4096 goodImage).programStackPointer ∧
      (load examplePATCHRAM 0x68000000 4096 goodImage).programStackPointer
        ≤ examplePATCHRAM + 80 * 1024) ∧
    (load examplePATCHRAM 0x68000000 4096 goodImage).programFunction
      = readWord goodImage.mem (0x68000000 + 8) ∧
    (load examplePATCHRAM 0x68000000 4096 goodImage).programStackPointer
      = readWord goodImage.mem (0x68000000 + 4) ∧
    (Separate 0x68000000 4 examplePATCHRAM 4096 →
      readWord (load examplePATCHRAM 0x68000000 4096 goodImage).mem 0x68000000
        = readWord goodImage.mem 0x68000000)) :=
  ⟨by decide, verify_after_load_iff examplePATCHRAM 0x68000000 4096 goodImage (by decide)
    (by decide) (by decide)⟩

/-- C4: for every image that `load` rejects (link base address different from
the region base, or length at least 80 KiB), whatever magic and stack pointer
it carries, a `verify` made after that `load` returns false. -/
theorem verify_false_after_rejected_load (PATCHRAM address length : Nat) (s : State)
    (h : readWord s.mem (address + 12) ≠ PATCHRAM ∨ length ≥ 80 * 1024) :
    verify PATCHRAM (load PATCHRAM address length s) = false := by
  cases hv : verify PATCHRAM (load PATCHRAM address length s) with
  | false => rfl
  | true =>
    have h2 := ((verify_eq_true_iff _ _).1 hv).2.1
    exact absurd (load_rejected PATCHRAM address length s h) h2

/-- Witness for C4: the magic and an in-bounds stack pointer, link address one
past the region base. -/
theorem verify_false_after_rejected_load_witness :
    (readWord badLinkImage.mem (0x68000000 + 12) ≠ examplePATCHRAM ∨ 4096 ≥ 80 * 1024) ∧
    readWord badLinkImage.mem 0x68000000 = 0xDADAC0DE ∧
    examplePATCHRAM ≤ readWord badLinkImage.mem (0x68000000 + 4) ∧
    readWord badLinkImage.mem (0x68000000 + 4) < examplePATCHRAM + 80 * 1024 ∧
    verify examplePATCHRAM (load examplePATCHRAM 0x68000000 4096 badLinkImage) = false :=
  ⟨by decide, by decide, by decide, by decide,
    verify_false_after_rejected_load examplePATCHRAM 0x68000000 4096 badLinkImage
      (by decide)⟩

/-! ## Persistence -/

/-- The save address of a valid slot, in closed form. -/
lemma saveProgramAddr_eq (sector : Nat) (h : sector ≤ 4) :
    saveProgramAddr sector = 0xDC000 - sector * 0x20000 := by
  interval_cases sector <;> decide

/-- The load address of a valid slot, in closed form. -/
lemma loadProgramAddr_eq (sector : Nat) (h : sector ≤ 4) :
    loadProgramAddr sector = 0x080E0000 - sector * 0x20000 := by
  interval_cases sector <;> decide

/-- Memory is never changed by `loadProgram`: the length it passes fails the
check of the loader. -/
lemma loadProgram_mem (PATCHRAM sector : Nat) (s : State) :
    (loadProgram PATCHRAM sector s).state.mem = s.mem := by
  unfold loadProgram
  split
  · rfl
  · simp [load]

/-- C5: for every slot index greater than 4, `saveProgram` and `loadProgram`
both return false, make no storage-driver call and no loader call, and leave
the state (execution region and program handle) unchanged. -/
theorem slot_out_of_range_rejected (PATCHRAM sector : Nat) (s : State) (h : sector > 4) :
    (saveProgram PATCHRAM sector s).ret = some false ∧
    (saveProgram PATCHRAM sector s).calls = [] ∧
    (saveProgram PATCHRAM sector s).state = s ∧
    (loadProgram PATCHRAM sector s).ret = some false ∧
    (loadProgram PATCHRAM sector s).calls = [] ∧
    (loadProgram PATCHRAM sector s).state = s := by
  simp [saveProgram, loadProgram, h]

/-- Witness for C5: slot index 5 with an image resident. -/
theorem slot_out_of_range_rejected_witness :
    5 > 4 ∧
    (saveProgram examplePATCHRAM 5 residentState).ret = some false ∧
    (saveProgram examplePATCHRAM 5 residentState).calls = [] ∧
    (saveProgram examplePATCHRAM 5 residentState).state = residentState ∧
    (loadProgram examplePATCHRAM 5 residentState).ret = some false ∧
    (loadProgram examplePATCHRAM 5 residentState).calls = [] ∧
    (loadProgram examplePATCHRAM 5 residentState).state = residentState :=
  ⟨by decide, slot_out_of_range_rejected examplePATCHRAM 5 residentState (by decide)⟩

/-- C6: for every slot index `s` in 0..4, `saveProgram(s)` is not rejected and
issues exactly unlock, erase(a), write_block(a, execution region,
programLength), lock, in that order, where `a` is computed without
wrap-around: `a = 0x080E0000 - s*128*1024 - 0x08004000 = 0xDC000 - s*0x20000`
and `0x3C000 <= a <= 0xDC000`. -/
theorem saveProgram_driver_calls (PATCHRAM sector : Nat) (s : State) (h : sector ≤ 4) :
    (saveProgram PATCHRAM sector s).ret ≠ some false ∧
    (saveProgram PATCHRAM sector s).calls =
      [Call.eeprom_unlock, Call.eeprom_erase (saveProgramAddr sector),
       Call.eeprom_write_block (saveProgramAddr sector) PATCHRAM s.programLength,
       Call.eeprom_lock] ∧
    sector * 128 * 1024 ≤ 0x080E0000 ∧
    0x08004000 ≤ 0x080E0000 - sector * 128 * 1024 ∧
    saveProgramAddr sector = 0x080E0000 - sector * 128 * 1024 - 0x08004000 ∧
    saveProgramAddr sector = 0xDC000 - sector * 0x20000 ∧
    0x3C000 ≤ saveProgramAddr sector ∧ saveProgramAddr sector ≤ 0xDC000 := by
  have ha := saveProgramAddr_eq sector h
  have h1 : ¬ sector > 4 := by omega
  have h2 : ¬ (saveProgramAddr sector < 0x3c000 ∨ saveProgramAddr sector > 0xdc000) := by
    rw [ha]; omega
  refine ⟨?_, ?_, by omega, by omega, by rw [ha]; omega, ha, by rw [ha]; omega,
    by rw [ha]; omega⟩
  · simp only [saveProgram, if_neg h1, if_neg h2]
    simp
  · simp only [saveProgram, if_neg h1, if_neg h2]

/-- Witness for C6: slot 4, the lowest block. -/
theorem saveProgram_driver_calls_witness :
    4 ≤ 4 ∧
    ((saveProgram examplePATCHRAM 4 residentState).ret ≠ some false ∧
    (saveProgram examplePATCHRAM 4 residentState).calls =
      [Call.eeprom_unlock, Call.eeprom_erase (saveProgramAddr 4),
       Call.eeprom_write_block (saveProgramAddr 4) examplePATCHRAM
         residentState.programLength,
       Call.eeprom_lock] ∧
    4 * 128 * 1024 ≤ 0x080E0000 ∧
    0x08004000 ≤ 0x080E0000 - 4 * 128 * 1024 ∧
    saveProgramAddr 4 = 0x080E0000 - 4 * 128 * 1024 - 0x08004000 ∧
    saveProgramAddr 4 = 0xDC000 - 4 * 0x20000 ∧
    0x3C000 ≤ saveProgramAddr 4 ∧ saveProgramAddr 4 ≤ 0xDC000) :=
  ⟨by decide, saveProgram_driver_calls examplePATCHRAM 4 residentState (by decide)⟩

/-- C7, counterexample: for slot 0 `loadProgram` hands the loader the address
`0x080E0000` while `saveProgram` hands the storage driver `0xDC000`. -/
theorem load_and_save_address_differ :
    (loadProgram examplePATCHRAM 0 residentState).calls
      = [Call.load 0x080E0000 (80 * 1024)] ∧
    (saveProgram examplePATCHRAM 0 residentState).calls
      = [Call.eeprom_unlock, Call.eeprom_erase 0xDC000,
         Call.eeprom_write_block 0xDC000 examplePATCHRAM 16, Call.eeprom_lock] ∧
    loadProgramAddr 0 ≠ saveProgramAddr 0 := by
  decide

/-- C7, amended: for every slot index in 0..4, the address that `loadProgram`
hands to the loader is the address that `saveProgram` hands to the storage
driver plus the EEPROM base `0x08004000`: the driver address is an offset
from that base, the loader address is absolute. -/
theorem load_address_is_save_address_plus_base (PATCHRAM sector : Nat) (s : State)
    (h : sector ≤ 4) :
    (loadProgram PATCHRAM sector s).calls
      = [Call.load (saveProgramAddr sector + 0x08004000) (80 * 1024)] ∧
    (saveProgram PATCHRAM sector s).calls
      = [Call.eeprom_unlock, Call.eeprom_erase (saveProgramAddr sector),
         Call.eeprom_write_block (saveProgramAddr sector) PATCHRAM s.programLength,
         Call.eeprom_lock] ∧
    loadProgramAddr sector = saveProgramAddr sector + 0x08004000 := by
  have ha := saveProgramAddr_eq sector h
  have hl := loadProgramAddr_eq sector h
  have h1 : ¬ sector > 4 := by omega
  have h2 : ¬ (saveProgramAddr sector < 0x3c000 ∨ saveProgramAddr sector > 0xdc000) := by
    rw [ha]; omega
  have he : loadProgramAddr sector = saveProgramAddr sector + 0x08004000 := by
    rw [ha, hl]; omega
  refine ⟨?_, ?_, he⟩
  · simp only [loadProgram, if_neg h1, he]
  · simp only [saveProgram, if_neg h1, if_neg h2]

/-- Witness for C7 (amended): slot 0. -/
theorem load_address_is_save_address_plus_base_witness :
    0 ≤ 4 ∧
    ((loadProgram examplePATCHRAM 0 residentState).calls
      = [Call.load (saveProgramAddr 0 + 0x08004000) (80 * 1024)] ∧
    (saveProgram examplePATCHRAM 0 residentState).calls
      = [Call.eeprom_unlock, Call.eeprom_erase (saveProgramAddr 0),
         Call.eeprom_write_block (saveProgramAddr 0) examplePATCHRAM
           residentState.programLength,
         Call.eeprom_lock] ∧
    loadProgramAddr 0 = saveProgramAddr 0 + 0x08004000) :=
  ⟨by decide,
    load_address_is_save_address_plus_base examplePATCHRAM 0 residentState (by decide)⟩

/-- C8, the code at the failing input: a 16-byte image is resident (first byte
`0xDE`), it is saved to slot 0 (storage then holds the magic and the link
address), the first byte of the execution region is overwritten with zero,
and slot 0 is loaded. `loadProgram` returns true, yet the first byte of the
execution region is still zero, not the saved `0xDE`, and the entry pointer
is null. -/
theorem save_then_load_does_not_restore :
    residentState.programLength = 16 ∧
    residentState.mem examplePATCHRAM = 0xDE ∧
    readWord savedState.mem 0x080E0000 = 0xDADAC0DE ∧
    readWord savedState.mem (0x080E0000 + 12) = examplePATCHRAM ∧
    (loadProgram examplePATCHRAM 0 clobberedState).ret = some true ∧
    (loadProgram examplePATCHRAM 0 clobberedState).calls
      = [Call.load 0x080E0000 (80 * 1024)] ∧
    (loadProgram examplePATCHRAM 0 clobberedState).state.mem examplePATCHRAM = 0 ∧
    (loadProgram examplePATCHRAM 0 clobberedState).state.mem examplePATCHRAM
      ≠ residentState.mem examplePATCHRAM ∧
    (loadProgram examplePATCHRAM 0 clobberedState).state.programFunction = 0 := by
  decide

/-! ## Manager task -/

/-- The stop half keeps the handle and the task list in step. -/
lemma stopPhase_wellFormed (v : Nat) (k : Tasks) (hw : WellFormed k) :
    WellFormed (stopPhase v k) := by
  obtain ⟨h, ts, n⟩ := k
  unfold stopPhase
  split
  · split
    · rcases hw with ⟨h0, _⟩ | ⟨_, hts⟩
      · simp_all
      · simp only at hts
        subst hts
        left
        simp [vTaskDelete]
    · exact hw
  · exact hw

/-- The start half keeps the handle and the task list in step. -/
lemma startPhase_wellFormed (v : Nat) (ok : Bool) (k : Tasks) (hw : WellFormed k) :
    WellFormed (startPhase v ok k) := by
  obtain ⟨h, ts, n⟩ := k
  unfold startPhase
  split
  · split
    · rename_i _ h0
      simp only at h0
      subst h0
      rcases hw with ⟨_, hts⟩ | ⟨hne, _⟩
      · simp only at hts
        subst hts
        cases ok
        · left
          simp [xTaskCreate]
        · right
          simp [xTaskCreate]
      · simp at hne
    · exact hw
  · exact hw

/-- One Manager iteration keeps the handle and the task list in step. -/
lemma runManagerIteration_wellFormed (v : Nat) (ok : Bool) (k : Tasks) (hw : WellFormed k) :
    WellFormed (runManagerIteration v ok k) :=
  startPhase_wellFormed v ok _ (stopPhase_wellFormed v k hw)

/-- Any run of Manager iterations keeps the handle and the task list in step. -/
lemma foldl_wellFormed (ns : List (Nat × Bool)) (k : Tasks) (hw : WellFormed k) :
    WellFormed (ns.foldl (fun k n => runManagerIteration n.1 n.2 k) k) := by
  induction ns generalizing k with
  | nil => exact hw
  | cons n ns ih => exact ih _ (runManagerIteration_wellFormed n.1 n.2 k hw)

/-- Every state the Manager reaches from Stopped is well formed. -/
lemma runManager_wellFormed (ns : List (Nat × Bool)) : WellFormed (runManager ns) :=
  foldl_wellFormed ns stopped (Or.inl ⟨rfl, rfl⟩)

/-- The stop half only removes tasks. -/
lemma stopPhase_allocated (v : Nat) (k : Tasks) (ha : Allocated k) :
    Allocated (stopPhase v k) := by
  unfold stopPhase
  split
  · split
    · intro t ht
      simp only [vTaskDelete, List.mem_filter] at ht
      exact ha t ht.1
    · exact ha
  · exact ha

/-- The start half adds at most the handle it has just handed out. -/
lemma startPhase_allocated (v : Nat) (ok : Bool) (k : Tasks) (ha : Allocated k) :
    Allocated (startPhase v ok k) := by
  unfold startPhase
  split
  · split
    · cases ok
      · exact ha
      · intro t ht
        simp only [xTaskCreate, if_true, List.mem_cons] at ht
        show t ≤ k.allocated + 1
        rcases ht with ht | ht
        · omega
        · have := ha t ht
          omega
    · exact ha
  · exact ha

/-- One Manager iteration keeps every task handle among those handed out. -/
lemma runManagerIteration_allocated (v : Nat) (ok : Bool) (k : Tasks) (ha : Allocated k) :
    Allocated (runManagerIteration v ok k) :=
  startPhase_allocated v ok _ (stopPhase_allocated v k ha)

/-- Every state the Manager reaches from Stopped has only handed-out handles. -/
lemma runManager_allocated (ns : List (Nat × Bool)) : Allocated (runManager ns) := by
  have key : ∀ (l : List (Nat × Bool)) (k : Tasks), Allocated k →
      Allocated (l.foldl (fun k n => runManagerIteration n.1 n.2 k) k) := by
    intro l
    induction l with
    | nil => intro k hk; exact hk
    | cons n l ih => intro k hk; exact ih _ (runManagerIteration_allocated n.1 n.2 k hk)
  exact key ns stopped (by intro t ht; simp [stopped] at ht)

/-- A task is created only by the start half, and only on a null handle. -/
lemma startPhase_creates_on_null (v : Nat) (ok : Bool) (k : Tasks)
    (h : (startPhase v ok k).programTasks ≠ k.programTasks) : k.xProgramHandle = 0 := by
  unfold startPhase at h
  split at h
  · split at h
    · assumption
    · exact absurd rfl h
  · exact absurd rfl h

/-- C9: one iteration of the Manager loop on the notified value `v`, task
creation succeeding, applies stop before start. An existing program task is
deleted iff `v` has the stop bit; afterwards a program task exists iff `v` has
the start bit, or one existed before and `v` lacks the stop bit. For `v = 3`
every old task is gone and exactly one fresh task exists, named by the handle;
for `v = 0` nothing changes. -/
theorem manager_iteration_stop_before_start (v : Nat) (k : Tasks)
    (hw : WellFormed k) (ha : Allocated k) :
    (∀ t, t ∈ k.programTasks →
      (t ∉ (runManagerIteration v true k).programTasks ↔
        v &&& STOP_PROGRAM_NOTIFICATION ≠ 0)) ∧
    ((runManagerIteration v true k).programTasks ≠ [] ↔
      (v &&& START_PROGRAM_NOTIFICATION ≠ 0 ∨
        (k.programTasks ≠ [] ∧ v &&& STOP_PROGRAM_NOTIFICATION = 0))) ∧
    (v = 3 →
      (∀ t, t ∈ k.programTasks → t ∉ (runManagerIteration v true k).programTasks) ∧
      (runManagerIteration v true k).programTasks = [k.allocated + 1] ∧
      (runManagerIteration v true k).xProgramHandle = k.allocated + 1) ∧
    (v = 0 → ∀ ok, runManagerIteration v ok k = k) := by
  obtain ⟨h, ts, n⟩ := k
  have h3 : v = 3 → v &&& STOP_PROGRAM_NOTIFICATION ≠ 0 ∧ v &&& START_PROGRAM_NOTIFICATION ≠ 0 := by
    intro hv; subst hv; decide
  have h0 : v = 0 → v &&& STOP_PROGRAM_NOTIFICATION = 0 ∧ v &&& START_PROGRAM_NOTIFICATION = 0 := by
    intro hv; subst hv; decide
  rcases hw with ⟨hh, hts⟩ | ⟨hh, hts⟩
  · simp only at hh hts
    subst hh hts
    by_cases hstop : v &&& STOP_PROGRAM_NOTIFICATION = 0 <;>
    by_cases hstart : v &&& START_PROGRAM_NOTIFICATION = 0 <;>
    simp [runManagerIteration, stopPhase, startPhase, xTaskCreate, vTaskDelete, hstop, hstart] <;>
    first
      | exact ⟨fun hv => (h3 hv).2 hstart, fun hv => hstop (h0 hv).1⟩
      | exact fun hv => (h3 hv).2 hstart
      | exact fun hv => (h3 hv).1 hstop
      | exact fun hv => hstop (h0 hv).1
      | exact fun hv => hstart (h0 hv).2
  · simp only at hh hts
    subst hts
    have hle : h ≤ n := ha h (by simp)
    have hne : h ≠ n + 1 := by omega
    by_cases hstop : v &&& STOP_PROGRAM_NOTIFICATION = 0 <;>
    by_cases hstart : v &&& START_PROGRAM_NOTIFICATION = 0 <;>
    simp [runManagerIteration, stopPhase, startPhase, xTaskCreate, vTaskDelete, hstop, hstart,
      hh, hne] <;>
    first
      | exact ⟨fun hv => (h3 hv).2 hstart, fun hv => hstop (h0 hv).1⟩
      | exact fun hv => (h3 hv).2 hstart
      | exact fun hv => (h3 hv).1 hstop
      | exact fun hv => hstop (h0 hv).1

/-- Witness for C9: a running task with handle 1 and the reset value 3. -/
theorem manager_iteration_stop_before_start_witness :
    (WellFormed { xProgramHandle := 1, programTasks := [1], allocated := 1 } ∧
      Allocated { xProgramHandle := 1, programTasks := [1], allocated := 1 }) ∧
    runManagerIteration 3 true { xProgramHandle := 1, programTasks := [1], allocated := 1 }
      = { xProgramHandle := 2, programTasks := [2], allocated := 2 } ∧
    (3 = 3 →
      (∀ t, t ∈ [1] → t ∉ (runManagerIteration 3 true
        { xProgramHandle := 1, programTasks := [1], allocated := 1 }).programTasks) ∧
      (runManagerIteration 3 true
        { xProgramHandle := 1, programTasks := [1], allocated := 1 }).programTasks = [1 + 1] ∧
      (runManagerIteration 3 true
        { xProgramHandle := 1, programTasks := [1], allocated := 1 }).xProgramHandle = 1 + 1) :=
  ⟨⟨Or.inr ⟨by decide, rfl⟩, by intro t ht; simp at ht; subst ht; exact Nat.le_refl 1⟩,
    by decide,
    (manager_iteration_stop_before_start 3
      { xProgramHandle := 1, programTasks := [1], allocated := 1 }
      (Or.inr ⟨by decide, rfl⟩)
      (by intro t ht; simp at ht; subst ht; exact Nat.le_refl 1)).2.2.1⟩

/-- C10: in every state reachable from Stopped by Manager iterations with
arbitrary notified values (and arbitrary creation outcomes), at most one
program task exists, the handle is non-null exactly when a program task
exists and then names it, and in the next iteration the Manager creates a
program task only when the handle is null. -/
theorem manager_single_program_task (ns : List (Nat × Bool)) :
    (runManager ns).programTasks.length ≤ 1 ∧
    ((runManager ns).xProgramHandle ≠ 0 ↔ (runManager ns).programTasks ≠ []) ∧
    ((runManager ns).xProgramHandle ≠ 0 →
      (runManager ns).programTasks = [(runManager ns).xProgramHandle]) ∧
    (∀ v ok,
      (startPhase v ok (stopPhase v (runManager ns))).programTasks
          ≠ (stopPhase v (runManager ns)).programTasks →
        (stopPhase v (runManager ns)).xProgramHandle = 0) := by
  have hw := runManager_wellFormed ns
  refine ⟨?_, ?_, ?_, fun v ok h => startPhase_creates_on_null v ok _ h⟩
  · rcases hw with ⟨_, hts⟩ | ⟨_, hts⟩ <;> rw [hts] <;> simp
  · rcases hw with ⟨hh, hts⟩ | ⟨hh, hts⟩
    · rw [hts]; simp [hh]
    · rw [hts]; simp [hh]
  · rcases hw with ⟨hh, _⟩ | ⟨_, hts⟩
    · intro hne; exact absurd hh hne
    · intro _; exact hts

/-! ## Lifecycle requests -/

/-- A mask of one bit is non-zero exactly when that bit is set. -/
lemma land_two_pow_ne_zero (v k : Nat) : v &&& 2 ^ k ≠ 0 ↔ v.testBit k = true := by
  constructor
  · intro h
    by_contra hb
    apply h
    apply Nat.eq_of_testBit_eq
    intro i
    rw [Nat.testBit_land, Nat.testBit_two_pow, Nat.zero_testBit]
    by_cases hi : k = i
    · subst hi; simp [hb]
    · simp [hi]
  · intro hb h
    have := congrArg (fun x => x.testBit k) h
    simp [Nat.testBit_land, Nat.testBit_two_pow, hb] at this

/-- The stop bit is set exactly when bit 1 is. -/
lemma stop_bit_iff (v : Nat) : v &&& STOP_PROGRAM_NOTIFICATION ≠ 0 ↔ v.testBit 1 = true :=
  land_two_pow_ne_zero v 1

/-- The start bit is set exactly when bit 0 is. -/
lemma start_bit_iff (v : Nat) : v &&& START_PROGRAM_NOTIFICATION ≠ 0 ↔ v.testBit 0 = true :=
  land_two_pow_ne_zero v 0

/-- C11: each of `startProgram()`, `exit()` and `reset()` leaves the program
task handle and the set of existing program tasks unchanged (nothing is
created or destroyed by the request itself, and the Manager handle stays);
when the Manager task exists the pending notification value becomes
`old | 0x01`, `old | 0x02` and `old | 0x03` respectively, and when it does
not exist the pending value is unchanged. -/
theorem requests_only_set_bits (s : System) :
    ((startProgram s).tasks = s.tasks ∧ (exit s).tasks = s.tasks ∧
      (reset s).tasks = s.tasks) ∧
    ((startProgram s).xManagerHandle = s.xManagerHandle ∧
      (exit s).xManagerHandle = s.xManagerHandle ∧
      (reset s).xManagerHandle = s.xManagerHandle) ∧
    (s.xManagerHandle ≠ 0 →
      (startProgram s).notified = s.notified ||| 0x01 ∧
      (exit s).notified = s.notified ||| 0x02 ∧
      (reset s).notified = s.notified ||| 0x03) ∧
    (s.xManagerHandle = 0 →
      (startProgram s).notified = s.notified ∧
      (exit s).notified = s.notified ∧
      (reset s).notified = s.notified) := by
  refine ⟨⟨?_, ?_, ?_⟩, ⟨?_, ?_, ?_⟩, ?_, ?_⟩
  · unfold startProgram; simp only []; split <;> rfl
  · unfold exit; simp only []; split <;> rfl
  · unfold reset; split <;> rfl
  · unfold startProgram; simp only []; split <;> rfl
  · unfold exit; simp only []; split <;> rfl
  · unfold reset; split <;> rfl
  · intro h
    refine ⟨?_, ?_, ?_⟩
    · simp [startProgram, xTaskNotifyFromISR, h, START_PROGRAM_NOTIFICATION]
    · simp [exit, xTaskNotifyFromISR, h, STOP_PROGRAM_NOTIFICATION]
    · have h3 : STOP_PROGRAM_NOTIFICATION ||| START_PROGRAM_NOTIFICATION = 3 := by decide
      simp [reset, xTaskNotifyFromISR, h, h3]
  · intro h
    refine ⟨?_, ?_, ?_⟩
    · simp [startProgram, h]
    · simp [exit, h]
    · simp [reset, h]

/-- Witness for C11: the three requests on a running system, with and without
a Manager task. -/
theorem requests_only_set_bits_witness :
    (runningSystem.xManagerHandle ≠ 0 ∧ unmanagedSystem.xManagerHandle = 0) ∧
    ((startProgram runningSystem).notified = runningSystem.notified ||| 0x01 ∧
      (exit runningSystem).notified = runningSystem.notified ||| 0x02 ∧
      (reset runningSystem).notified = runningSystem.notified ||| 0x03) ∧
    ((startProgram unmanagedSystem).notified = unmanagedSystem.notified ∧
      (exit unmanagedSystem).notified = unmanagedSystem.notified ∧
      (reset unmanagedSystem).notified = unmanagedSystem.notified) :=
  ⟨by decide, (requests_only_set_bits runningSystem).2.2.1 (by decide),
    (requests_only_set_bits unmanagedSystem).2.2.2 (by decide)⟩

/-! ## Audio/program handoff -/

/-- C12: under the suspend/resume handoff with a program task present,
`audioReady` is idempotent on the state: the second call leaves the state as
the first did (task runnable, nothing else touched), so after
`audioReady; audioReady; programReady` the task is suspended, nothing is left
pending and exactly one more block has been processed, the same state as
after `audioReady; programReady`. With a null handle `audioReady` is a no-op
that makes no scheduler call. -/
theorem audioReady_idempotent (s : System) (h : s.tasks.xProgramHandle ≠ 0) :
    (audioReady Strategy.AUDIO_TASK_SUSPEND s).1 = { s with suspended := false } ∧
    (audioReady Strategy.AUDIO_TASK_SUSPEND (audioReady Strategy.AUDIO_TASK_SUSPEND s).1).1
      = (audioReady Strategy.AUDIO_TASK_SUSPEND s).1 ∧
    (programReady Strategy.AUDIO_TASK_SUSPEND
        (audioReady Strategy.AUDIO_TASK_SUSPEND
          (audioReady Strategy.AUDIO_TASK_SUSPEND s).1).1).1
      = some { s with suspended := true, blocksProcessed := s.blocksProcessed + 1 } ∧
    (programReady Strategy.AUDIO_TASK_SUSPEND
        (audioReady Strategy.AUDIO_TASK_SUSPEND
          (audioReady Strategy.AUDIO_TASK_SUSPEND s).1).1).1
      = (programReady Strategy.AUDIO_TASK_SUSPEND
          (audioReady Strategy.AUDIO_TASK_SUSPEND s).1).1 ∧
    (∀ s0 : System, s0.tasks.xProgramHandle = 0 →
      audioReady Strategy.AUDIO_TASK_SUSPEND s0 = (s0, [])) := by
  have h1 : (audioReady Strategy.AUDIO_TASK_SUSPEND s).1 = { s with suspended := false } := by
    simp [audioReady, h, xTaskResumeFromISR]
  have h2 : (audioReady Strategy.AUDIO_TASK_SUSPEND { s with suspended := false }).1
      = { s with suspended := false } := by
    simp [audioReady, h, xTaskResumeFromISR]
  refine ⟨h1, ?_, ?_, ?_, ?_⟩
  · rw [h1, h2]
  · rw [h1, h2]
    simp [programReady, vTaskSuspend]
  · rw [h1, h2]
  · intro s0 h0
    simp [audioReady, h0]

/-- Witness for C12: a suspended program task with handle 1, and a stopped
system for the null handle. -/
theorem audioReady_idempotent_witness :
    runningSystem.tasks.xProgramHandle ≠ 0 ∧
    (programReady Strategy.AUDIO_TASK_SUSPEND
        (audioReady Strategy.AUDIO_TASK_SUSPEND
          (audioReady Strategy.AUDIO_TASK_SUSPEND runningSystem).1).1).1
      = some { runningSystem with
          suspended := true, blocksProcessed := runningSystem.blocksProcessed + 1 } ∧
    audioReady Strategy.AUDIO_TASK_SUSPEND stoppedSystem = (stoppedSystem, []) :=
  ⟨by decide, (audioReady_idempotent runningSystem (by decide)).2.2.1,
    (audioReady_idempotent runningSystem (by decide)).2.2.2.2 stoppedSystem (by decide)⟩

/-- C13, the code at the failing input: with a null entry pointer (no load
yet, or a rejected load) a start request is processed by the Manager as
usual, the program task is created, and its entry `runProgramTask` invokes
the entry pointer, the null address. -/
theorem null_entry_is_invoked :
    (initState (fun _ => 0)).programFunction = 0 ∧
    (load examplePATCHRAM 0x68000000 4096 badLinkImage).programFunction = 0 ∧
    (managerIteration true (startProgram stoppedSystem)).2
      = [ManagerEvent.createCalled true] ∧
    (managerIteration true (startProgram stoppedSystem)).1.tasks.programTasks = [1] ∧
    runProgramTask (load examplePATCHRAM 0x68000000 4096 badLinkImage).programFunction
      = [TaskAction.setLedGreen, TaskAction.invoke 0, TaskAction.spin] ∧
    TaskAction.invoke 0 ∈ runProgramTask (initState (fun _ => 0)).programFunction := by
  decide

/-- C14: under every handoff strategy the interrupt-side call `audioReady`
returns after at most two primitives, each of them a non-blocking `FromISR`
call or a store to the status flag; under the direct poll it is the single
store. -/
theorem audioReady_never_blocks (strategy : Strategy) (s : System) :
    (audioReady strategy s).2.length ≤ 2 ∧
    (audioReady strategy s).2.all Primitive.nonBlocking = true ∧
    (audioReady Strategy.AUDIO_TASK_DIRECT s).2
      = [Primitive.storeStatus Status.AUDIO_READY_STATUS] := by
  refine ⟨?_, ?_, rfl⟩
  · cases strategy <;> simp only [audioReady] <;> (try split) <;> simp
  · cases strategy <;> simp only [audioReady] <;> (try split) <;>
      simp [Primitive.nonBlocking]

/-! ## Requests followed by a Manager iteration -/

/-- Issuing a sequence that ends in `a` is issuing the rest, then `a`. -/
lemma issueAll_concat (l : List Request) (a : Request) (s : System) :
    issueAll (l ++ [a]) s = a.issue (issueAll l s) := by
  simp [issueAll, List.foldl_append]

/-- The last status writer of a sequence that ends in `a`. -/
lemma lastStatusWriter_concat (l : List Request) (a : Request) :
    lastStatusWriter (l ++ [a]) = if a = Request.reset then lastStatusWriter l else some a := by
  unfold lastStatusWriter
  rw [List.filter_append]
  by_cases ha : a = Request.reset
  · simp [ha]
  · simp [ha]

/-- No request touches the task bookkeeping or the Manager handle. -/
lemma issue_frame (r : Request) (s : System) :
    (r.issue s).tasks = s.tasks ∧ (r.issue s).xManagerHandle = s.xManagerHandle := by
  cases r
  · simp only [Request.issue, startProgram]; split <;> exact ⟨rfl, rfl⟩
  · simp only [Request.issue, exit]; split <;> exact ⟨rfl, rfl⟩
  · simp only [Request.issue, reset]; split <;> exact ⟨rfl, rfl⟩

/-- No sequence of requests touches the task bookkeeping or the Manager
handle. -/
lemma issueAll_frame (rs : List Request) (s : System) :
    (issueAll rs s).tasks = s.tasks ∧ (issueAll rs s).xManagerHandle = s.xManagerHandle := by
  induction rs using List.reverseRecOn with
  | nil => exact ⟨rfl, rfl⟩
  | append_singleton l a ih =>
    rw [issueAll_concat]
    exact ⟨(issue_frame a _).1.trans ih.1, (issue_frame a _).2.trans ih.2⟩

/-- A request never clears a pending stop bit. -/
lemma issue_keeps_stop (r : Request) (s : System) (h : s.notified.testBit 1 = true) :
    (r.issue s).notified.testBit 1 = true := by
  cases r
  · simp only [Request.issue, startProgram]
    split
    · simp [xTaskNotifyFromISR, Nat.testBit_lor, h]
    · exact h
  · simp only [Request.issue, exit]
    split
    · simp [xTaskNotifyFromISR, Nat.testBit_lor, h]
    · exact h
  · simp only [Request.issue, reset]
    split
    · simp [xTaskNotifyFromISR, Nat.testBit_lor, h]
    · exact h

/-- When the last status writer of a sequence is `exit`, the flag holds
EXIT-REQUESTED afterwards and, with a Manager task, the stop bit is pending. -/
lemma issueAll_exit_last (rs : List Request) (s : System)
    (h : lastStatusWriter rs = some Request.exit) :
    (issueAll rs s).status = Status.AUDIO_EXIT_STATUS ∧
    (s.xManagerHandle ≠ 0 → (issueAll rs s).notified.testBit 1 = true) := by
  induction rs using List.reverseRecOn with
  | nil => simp [lastStatusWriter] at h
  | append_singleton l a ih =>
    rw [lastStatusWriter_concat] at h
    rw [issueAll_concat]
    cases a with
    | startProgram => simp at h
    | exit =>
      refine ⟨?_, fun hm => ?_⟩
      · simp only [Request.issue, exit]; split <;> rfl
      · have hm2 : (issueAll l s).xManagerHandle ≠ 0 := by rw [(issueAll_frame l s).2]; exact hm
        have h21 : Nat.testBit 2 1 = true := by decide
        simp [Request.issue, exit, hm2, xTaskNotifyFromISR, Nat.testBit_lor,
          STOP_PROGRAM_NOTIFICATION, h21]
    | reset =>
      have ih2 := ih (by simpa using h)
      refine ⟨?_, fun hm => issue_keeps_stop _ _ (ih2.2 hm)⟩
      simp only [Request.issue, reset]
      split
      · exact ih2.1
      · exact ih2.1

/-- C15, counterexample: on a running system `exit(); startProgram()` leaves
the stop bit pending and the flag at IDLE; the Manager iteration that follows
destroys the program task while the flag holds IDLE, not EXIT-REQUESTED. -/
theorem destroyed_with_idle_flag :
    (issueAll [Request.exit, Request.startProgram] runningSystem).notified = 3 ∧
    (managerIteration true (issueAll [Request.exit, Request.startProgram] runningSystem)).2
      = [ManagerEvent.deleted 1 Status.AUDIO_IDLE_STATUS, ManagerEvent.createCalled true] ∧
    Status.AUDIO_IDLE_STATUS ≠ Status.AUDIO_EXIT_STATUS := by
  decide

/-- C15, amended: for every sequence of lifecycle requests whose most recent
`exit()` or `startProgram()` is an `exit()`, followed by a Manager iteration,
whenever the Manager destroys the program task the shared status flag holds
EXIT-REQUESTED at that moment; and with a Manager task and a program task
present the iteration does begin by destroying that task. -/
theorem exit_last_marks_flag (rs : List Request) (s : System) (ok : Bool)
    (h : lastStatusWriter rs = some Request.exit) :
    (∀ handle status,
      ManagerEvent.deleted handle status ∈ (managerIteration ok (issueAll rs s)).2 →
        status = Status.AUDIO_EXIT_STATUS) ∧
    (s.xManagerHandle ≠ 0 → s.tasks.xProgramHandle ≠ 0 →
      (managerIteration ok (issueAll rs s)).2.head?
        = some (ManagerEvent.deleted s.tasks.xProgramHandle Status.AUDIO_EXIT_STATUS)) := by
  obtain ⟨hst, hbit⟩ := issueAll_exit_last rs s h
  obtain ⟨htasks, _⟩ := issueAll_frame rs s
  constructor
  · intro handle status hmem
    simp only [managerIteration, List.mem_append] at hmem
    rcases hmem with hmem | hmem
    · split at hmem
      · simp only [List.mem_singleton, ManagerEvent.deleted.injEq] at hmem
        rw [hmem.2, hst]
      · simp at hmem
    · split at hmem <;> simp at hmem
  · intro hm hp
    have hstop : (issueAll rs s).notified &&& STOP_PROGRAM_NOTIFICATION ≠ 0 :=
      (stop_bit_iff _).2 (hbit hm)
    have hp2 : (issueAll rs s).tasks.xProgramHandle ≠ 0 := by rw [htasks]; exact hp
    simp only [managerIteration]
    rw [if_pos ⟨hstop, hp2⟩, htasks, hst]
    rfl

/-- Witness for C15 (amended): `startProgram(); exit(); reset()` on a running
system. -/
theorem exit_last_marks_flag_witness :
    lastStatusWriter [Request.startProgram, Request.exit, Request.reset]
      = some Request.exit ∧
    (managerIteration true
        (issueAll [Request.startProgram, Request.exit, Request.reset] runningSystem)).2.head?
      = some (ManagerEvent.deleted runningSystem.tasks.xProgramHandle
          Status.AUDIO_EXIT_STATUS) :=
  ⟨by decide,
    (exit_last_marks_flag [Request.startProgram, Request.exit, Request.reset] runningSystem
      true (by decide)).2 (by decide) (by decide)⟩

/-- C16: for every slot index in 0..4 and every content of memory and
storage, `loadProgram` returns true and yet leaves the entry pointer null and
memory, the execution region included, unmodified: the length `80*1024` it
hands to the loader fails the strict check `length < 80*1024`. -/
theorem loadProgram_never_loads (PATCHRAM sector : Nat) (s : State) (h : sector ≤ 4) :
    (loadProgram PATCHRAM sector s).ret = some true ∧
    (loadProgram PATCHRAM sector s).calls
      = [Call.load (loadProgramAddr sector) (80 * 1024)] ∧
    ¬ (80 * 1024 < 80 * 1024) ∧
    (loadProgram PATCHRAM sector s).state.programFunction = 0 ∧
    (loadProgram PATCHRAM sector s).state.mem = s.mem := by
  have h1 : ¬ sector > 4 := by omega
  refine ⟨?_, ?_, by decide, ?_, loadProgram_mem PATCHRAM sector s⟩
  · simp only [loadProgram, if_neg h1]
  · simp only [loadProgram, if_neg h1]
  · simp only [loadProgram, if_neg h1]
    exact load_rejected PATCHRAM _ _ s (Or.inr (Nat.le_refl _))

/-- Witness for C16: slot 0 after a valid image was saved there and the
execution region was overwritten. -/
theorem loadProgram_never_loads_witness :
    0 ≤ 4 ∧
    readWord clobberedState.mem (loadProgramAddr 0 + 12) = examplePATCHRAM ∧
    ((loadProgram examplePATCHRAM 0 clobberedState).ret = some true ∧
    (loadProgram examplePATCHRAM 0 clobberedState).calls
      = [Call.load (loadProgramAddr 0) (80 * 1024)] ∧
    ¬ (80 * 1024 < 80 * 1024) ∧
    (loadProgram examplePATCHRAM 0 clobberedState).state.programFunction = 0 ∧
    (loadProgram examplePATCHRAM 0 clobberedState).state.mem = clobberedState.mem) :=
  ⟨by decide, by decide, loadProgram_never_loads examplePATCHRAM 0 clobberedState (by decide)⟩

/-- A notified value with both bits makes the iteration end with a task. -/
lemma runManagerIteration_reset_creates (v : Nat) (k : Tasks)
    (hstop : v &&& STOP_PROGRAM_NOTIFICATION ≠ 0)
    (hstart : v &&& START_PROGRAM_NOTIFICATION ≠ 0) :
    (runManagerIteration v true k).programTasks ≠ [] := by
  by_cases hk : k.xProgramHandle = 0
  · simp [runManagerIteration, stopPhase, startPhase, xTaskCreate, hstop, hstart, hk]
  · simp [runManagerIteration, stopPhase, startPhase, xTaskCreate, vTaskDelete, hstop, hstart,
      hk]

/-- Any value with both low bits set has the stop bit and the start bit. -/
lemma lor_three_bits (n : Nat) :
    (n ||| 3) &&& STOP_PROGRAM_NOTIFICATION ≠ 0 ∧
    (n ||| 3) &&& START_PROGRAM_NOTIFICATION ≠ 0 := by
  have h31 : Nat.testBit 3 1 = true := by decide
  have h30 : Nat.testBit 3 0 = true := by decide
  constructor
  · rw [stop_bit_iff, Nat.testBit_lor, h31]; simp
  · rw [start_bit_iff, Nat.testBit_lor, h30]; simp

/-- C17: request coalescing loses order. With the Manager task present and no
Manager iteration in between, the pending notification value after
`startProgram(); exit()`, after `exit(); startProgram()` and after `reset()`
is the same, `old | 0x03` (3 when starting from 0), and the next Manager
iteration (task creation succeeding) ends with a program task existing in
all three cases, also when the stop request was issued last. -/
theorem coalescing_loses_order (s : System) (h : s.xManagerHandle ≠ 0) :
    (exit (startProgram s)).notified = s.notified ||| 3 ∧
    (startProgram (exit s)).notified = s.notified ||| 3 ∧
    (reset s).notified = s.notified ||| 3 ∧
    (s.notified = 0 →
      (exit (startProgram s)).notified = 3 ∧ (startProgram (exit s)).notified = 3 ∧
      (reset s).notified = 3) ∧
    (managerIteration true (exit (startProgram s))).1.tasks.programTasks ≠ [] ∧
    (managerIteration true (startProgram (exit s))).1.tasks.programTasks ≠ [] ∧
    (managerIteration true (reset s)).1.tasks.programTasks ≠ [] := by
  have h12 : (1 : Nat) ||| 2 = 3 := by decide
  have h21 : (2 : Nat) ||| 1 = 3 := by decide
  have e1 : (exit (startProgram s)).notified = s.notified ||| 3 := by
    simp [exit, startProgram, xTaskNotifyFromISR, h, START_PROGRAM_NOTIFICATION,
      STOP_PROGRAM_NOTIFICATION, Nat.lor_assoc, h12]
  have e2 : (startProgram (exit s)).notified = s.notified ||| 3 := by
    simp [exit, startProgram, xTaskNotifyFromISR, h, START_PROGRAM_NOTIFICATION,
      STOP_PROGRAM_NOTIFICATION, Nat.lor_assoc, h21]
  have e3 : (reset s).notified = s.notified ||| 3 := by
    simp [reset, xTaskNotifyFromISR, h, START_PROGRAM_NOTIFICATION,
      STOP_PROGRAM_NOTIFICATION, h21]
  have hb := lor_three_bits s.notified
  refine ⟨e1, e2, e3, ?_, ?_, ?_, ?_⟩
  · intro h0
    rw [e1, e2, e3, h0]
    decide
  · simp only [managerIteration, e1]
    exact runManagerIteration_reset_creates _ _ hb.1 hb.2
  · simp only [managerIteration, e2]
    exact runManagerIteration_reset_creates _ _ hb.1 hb.2
  · simp only [managerIteration, e3]
    exact runManagerIteration_reset_creates _ _ hb.1 hb.2

/-- Witness for C17: a running system with nothing pending; the old task 1 is
replaced by the fresh task 2 in all three cases. -/
theorem coalescing_loses_order_witness :
    runningSystem.xManagerHandle ≠ 0 ∧
    (managerIteration true (exit (startProgram runningSystem))).1.tasks.programTasks = [2] ∧
    (managerIteration true (startProgram (exit runningSystem))).1.tasks.programTasks = [2] ∧
    (managerIteration true (reset runningSystem)).1.tasks.programTasks = [2] ∧
    ((exit (startProgram runningSystem)).notified = 3 ∧
      (startProgram (exit runningSystem)).notified = 3 ∧
      (reset runningSystem).notified = 3) :=
  ⟨by decide, by decide, by decide, by decide,
    (coalescing_loses_order runningSystem (by decide)).2.2.2.1 (by decide)⟩

/-! ## USB data-in stage -/

/-- C18: with `USB_Tx_State = 1`, `APP_Rx_length > 0` and
`APP_Rx_ptr_out + APP_Rx_length <= APP_RX_DATA_SIZE <= 65535`,
`usbd_audio_DataIn` transmits exactly `min(APP_Rx_length,
MIDI_MAX_PACKET_SIZE)` bytes starting at the old `APP_Rx_ptr_out`, advances
`APP_Rx_ptr_out` by that amount (to the end of the transmitted slice) and
preserves `APP_Rx_ptr_out + APP_Rx_length`; the slice lies inside the buffer
and `USB_Tx_State` stays 1. With `APP_Rx_length = 0` it transmits nothing and
sets `USB_Tx_State` to 0. -/
theorem dataIn_sends_next_slice (MIDI_MAX_PACKET_SIZE APP_RX_DATA_SIZE : Nat) (s : UsbState)
    (hstate : s.USB_Tx_State = 1)
    (hfit : s.APP_Rx_ptr_out + s.APP_Rx_length ≤ APP_RX_DATA_SIZE)
    (hsize : APP_RX_DATA_SIZE ≤ 65535) :
    (0 < s.APP_Rx_length →
      (usbd_audio_DataIn MIDI_MAX_PACKET_SIZE s).2
        = some ⟨s.APP_Rx_ptr_out, min s.APP_Rx_length MIDI_MAX_PACKET_SIZE⟩ ∧
      (usbd_audio_DataIn MIDI_MAX_PACKET_SIZE s).1.APP_Rx_ptr_out
        = s.APP_Rx_ptr_out + min s.APP_Rx_length MIDI_MAX_PACKET_SIZE ∧
      (usbd_audio_DataIn MIDI_MAX_PACKET_SIZE s).1.APP_Rx_ptr_out
          + (usbd_audio_DataIn MIDI_MAX_PACKET_SIZE s).1.APP_Rx_length
        = s.APP_Rx_ptr_out + s.APP_Rx_length ∧
      s.APP_Rx_ptr_out + min s.APP_Rx_length MIDI_MAX_PACKET_SIZE ≤ APP_RX_DATA_SIZE ∧
      (usbd_audio_DataIn MIDI_MAX_PACKET_SIZE s).1.USB_Tx_State = 1) ∧
    (s.APP_Rx_length = 0 →
      usbd_audio_DataIn MIDI_MAX_PACKET_SIZE s = ({ s with USB_Tx_State := 0 }, none)) := by
  constructor
  · intro hpos
    have hne : ¬ s.APP_Rx_length = 0 := by omega
    by_cases hgt : s.APP_Rx_length > MIDI_MAX_PACKET_SIZE
    · have hmin : min s.APP_Rx_length MIDI_MAX_PACKET_SIZE = MIDI_MAX_PACKET_SIZE :=
        Nat.min_eq_right (by omega)
      have hsub : sub32 s.APP_Rx_length MIDI_MAX_PACKET_SIZE
          = s.APP_Rx_length - MIDI_MAX_PACKET_SIZE := by
        unfold sub32 WORD; omega
      simp only [usbd_audio_DataIn, hstate, if_true, if_neg hne, if_pos hgt, hmin, hsub]
      unfold WORD
      refine ⟨?_, ?_, ?_, ?_, trivial⟩
      · congr 2 <;> omega
      · omega
      · omega
      · omega
    · have hmin : min s.APP_Rx_length MIDI_MAX_PACKET_SIZE = s.APP_Rx_length :=
        Nat.min_eq_left (by omega)
      simp only [usbd_audio_DataIn, hstate, if_true, if_neg hne, if_neg hgt, hmin]
      unfold WORD
      refine ⟨?_, ?_, ?_, ?_, trivial⟩
      · congr 2 <;> omega
      · omega
      · omega
      · omega
  · intro h0
    simp only [usbd_audio_DataIn, hstate, if_true, if_pos h0]

/-- Witness for C18: 100 bytes pending from offset 8 with 64-byte packets in a
2048-byte buffer, and a drained transfer. -/
theorem dataIn_sends_next_slice_witness :
    (usbPending.USB_Tx_State = 1 ∧
      usbPending.APP_Rx_ptr_out + usbPending.APP_Rx_length ≤ 2048 ∧ 2048 ≤ 65535 ∧
      0 < usbPending.APP_Rx_length) ∧
    usbd_audio_DataIn 64 usbPending
      = ({ usbPending with APP_Rx_ptr_out := 72, APP_Rx_length := 36 }, some ⟨8, 64⟩) ∧
    ((usbd_audio_DataIn 64 usbPending).2
        = some ⟨usbPending.APP_Rx_ptr_out, min usbPending.APP_Rx_length 64⟩ ∧
      (usbd_audio_DataIn 64 usbPending).1.APP_Rx_ptr_out
        = usbPending.APP_Rx_ptr_out + min usbPending.APP_Rx_length 64 ∧
      (usbd_audio_DataIn 64 usbPending).1.APP_Rx_ptr_out
          + (usbd_audio_DataIn 64 usbPending).1.APP_Rx_length
        = usbPending.APP_Rx_ptr_out + usbPending.APP_Rx_length ∧
      usbPending.APP_Rx_ptr_out + min usbPending.APP_Rx_length 64 ≤ 2048 ∧
      (usbd_audio_DataIn 64 usbPending).1.USB_Tx_State = 1) ∧
    usbd_audio_DataIn 64 usbDrained = ({ usbDrained with USB_Tx_State := 0 }, none) :=
  ⟨by decide, by decide,
    (dataIn_sends_next_slice 64 2048 usbPending (by decide) (by decide) (by decide)).1
      (by decide),
    (dataIn_sends_next_slice 64 2048 usbDrained (by decide) (by decide) (by decide)).2
      (by decide)⟩

end OwlWare
